import Mathlib

set_option maxHeartbeats 1000000

/-!
Shallow embedding of the two scripts of this repository:
`Dataset/parser.py`, the label-driven file classification and relocation
routine, and `dataset-converter/RemoveComma.py`, the bulk text-substitution
utility.  The filesystem is modelled explicitly as the set of directories
and regular files that exist; every fallible Python step is an `Except`
whose error also records the disk state at the moment the script would die.
-/

/-- A row of the annotation table: pandas exposes a row as a mapping from
column names to values, modelled as an association list.  Looking up an
absent column raises `KeyError` in Python, hence the `Option` in `getCol`. -/
abbrev Row := List (String × String)

/-- `row[c]` in pandas: `some v` when column `c` is present, `none`
(a `KeyError` in Python) otherwise. -/
def getCol (row : Row) (c : String) : Option String := List.lookup c row

/-- The annotation column holding the label (the script's `row['category']`). -/
def categoryCol : String := "category"

/-- The annotation column holding the file name (`row['filename']`). -/
def filenameCol : String := "filename"

/-- Python's `s.endswith(suffix)` (computed on the character lists, so that
it evaluates inside the kernel). -/
def strEndsWith (s suffix : String) : Bool := suffix.data.isSuffixOf s.data

/-- `os.path.join a b` for a relative second component: a separator is
inserted unless `a` already ends with one. -/
def pathJoin (a b : String) : String :=
  if strEndsWith a ("/") then a ++ b else a ++ "/" ++ b

/-- The directory containing a path: everything before the last separator. -/
def parentDir (p : String) : String :=
  String.mk (((p.data.reverse.dropWhile (fun c => c != '/')).drop 1).reverse)

/-- The relevant slice of the filesystem: which directories and which
regular files exist. -/
structure FS where
  dirs : List String
  files : List String
deriving DecidableEq

/-- `os.path.exists`, restricted to the regular files of the model. -/
def fileExists (fs : FS) (p : String) : Bool := decide (p ∈ fs.files)

/-- Existence test for a directory of the model. -/
def dirExists (fs : FS) (p : String) : Bool := decide (p ∈ fs.dirs)

/-- Deletion of a regular file. -/
def removeFile (fs : FS) (p : String) : FS :=
  FS.mk fs.dirs (fs.files.filter (fun q => q != p))

/-- Creation of a regular file (a no-op when the path already exists). -/
def insertFile (fs : FS) (p : String) : FS :=
  FS.mk fs.dirs (if p ∈ fs.files then fs.files else p :: fs.files)

/-- Effect of `shutil.move src dst` on the files once the destination's
directory is known to exist: `src` disappears and `dst` appears,
overwriting any file previously at `dst`. -/
def moveFile (fs : FS) (src dst : String) : FS :=
  insertFile (removeFile fs src) dst

/-- Per-record relocation outcome: the spec's `RelocationOutcome`
(`Moved` / `SourceMissing`), plus `skipped` for rows whose label does not
match the selector. -/
inductive Outcome where
  | moved
  | sourceMissing
  | skipped
deriving DecidableEq

/-- The ways the script can die with an uncaught Python exception:
`loadErr` for `pd.read_csv` failing, `keyErr c` for a row lacking column
`c`, and `moveErr dst` for `shutil.move` failing because the directory of
`dst` does not exist. -/
inductive PyErr where
  | loadErr
  | keyErr (col : String)
  | moveErr (dst : String)
deriving DecidableEq

/-- The script's per-record success line `Moved: {src_path} → {dst_path}`. -/
def movedLine (sp dp : String) : String := "Moved: " ++ sp ++ " → " ++ dp

/-- The script's per-record absence line `File not found: {src_path}`. -/
def notFoundLine (sp : String) : String := "File not found: " ++ sp

/-- Line 32 of `parser.py`: `src_path = os.path.join(source, filename)`. -/
def src_path (source filename : String) : String := pathJoin source filename

/-- Line 33 of `parser.py`: `dst_path = os.path.join(dest, filename)`. -/
def dst_path (dest filename : String) : String := pathJoin dest filename

/-- Line 23 of `parser.py`: `dest = os.path.join(destinationRoot, label)`
(the script's variable is called `dest`). -/
def destFor (destinationRoot lab : String) : String := pathJoin destinationRoot lab

/-- One iteration of the main loop of `parser.py`: look up the row's
category; if it equals the configured label, look up the filename, build
`src_path` and `dst_path`, and when the source exists move it (which
requires the destination's directory to exist — the script never creates
it).  On success it yields the new filesystem, the record's outcome and
the printed lines; an error carries the unchanged filesystem. -/
def processRow (label source dest : String) (fs : FS) (row : Row) :
    Except (PyErr × FS) (FS × Outcome × List String) :=
  match getCol row categoryCol with
  | none => Except.error (PyErr.keyErr categoryCol, fs)
  | some c =>
    if c = label then
      match getCol row filenameCol with
      | none => Except.error (PyErr.keyErr filenameCol, fs)
      | some filename =>
        if fileExists fs (src_path source filename) then
          if dirExists fs (parentDir (dst_path dest filename)) then
            Except.ok (moveFile fs (src_path source filename) (dst_path dest filename),
              Outcome.moved,
              [movedLine (src_path source filename) (dst_path dest filename)])
          else Except.error (PyErr.moveErr (dst_path dest filename), fs)
        else Except.ok (fs, Outcome.sourceMissing, [notFoundLine (src_path source filename)])
    else Except.ok (fs, Outcome.skipped, [])

/-- The whole `for index, row in data.iterrows()` loop of `parser.py`,
in table order, threading the filesystem and collecting the outcomes and
printed lines. -/
def runRows (label source dest : String) : FS → List Row →
    Except (PyErr × FS) (FS × List Outcome × List String)
  | fs, [] => Except.ok (fs, [], [])
  | fs, row :: rest =>
    match processRow label source dest fs row with
    | Except.error e => Except.error e
    | Except.ok (fs1, oc, ls) =>
      match runRows label source dest fs1 rest with
      | Except.error e => Except.error e
      | Except.ok (fs2, os, ls2) => Except.ok (fs2, oc :: os, ls ++ ls2)

/-- The whole script: `pd.read_csv` either fails (`csvData = none`, the
file being absent or unreadable) before any file is touched, or yields the
rows which the loop then processes. -/
def runScript (csvData : Option (List Row)) (label source dest : String) (fs : FS) :
    Except (PyErr × FS) (FS × List Outcome × List String) :=
  match csvData with
  | none => Except.error (PyErr.loadErr, fs)
  | some rows => runRows label source dest fs rows

/-- Process exit status: an uncaught Python exception terminates the
process with a non-zero status, a completed run exits with zero. -/
def exitCode (r : Except (PyErr × FS) (FS × List Outcome × List String)) : Nat :=
  match r with
  | Except.error _ => 1
  | Except.ok _ => 0

/-- Modelled from the spec: the per-run report of counts
`\x7bmoved, missing, skipped\x7d` over the outcomes (the script itself keeps
no counters; the report is derived from the per-record outcomes). -/
structure Report where
  moved : Nat
  missing : Nat
  skipped : Nat
deriving DecidableEq

/-- Modelled from the spec: derive the report of counts from the list of
per-record outcomes. -/
def mkReport (os : List Outcome) : Report :=
  Report.mk
    (os.countP (fun o => decide (o = Outcome.moved)))
    (os.countP (fun o => decide (o = Outcome.sourceMissing)))
    (os.countP (fun o => decide (o = Outcome.skipped)))

/-- What a record's outcome becomes when the same run is repeated
immediately: a record that was moved (or already missing) now finds its
source missing; an unmatched record is skipped again. -/
def rerunOutcome : Outcome → Outcome
  | Outcome.moved => Outcome.sourceMissing
  | Outcome.sourceMissing => Outcome.sourceMissing
  | Outcome.skipped => Outcome.skipped

/-- Python's `s.replace(old, new)` on character lists: scan from the left,
replacing each non-overlapping occurrence of `pat`.  (`RemoveComma.py` only
calls it with the non-empty pattern `"Truck"`; an empty pattern is treated
as matching nowhere.) -/
def replaceList (pat rep : List Char) : List Char → List Char
  | [] => []
  | x :: xs =>
    if pat ≠ [] ∧ pat.isPrefixOf (x :: xs) then
      rep ++ replaceList pat rep (List.drop (pat.length - 1) xs)
    else
      x :: replaceList pat rep xs
termination_by xs => xs.length
decreasing_by
  · simp only [List.length_drop, List.length_cons]
    omega
  · simp only [List.length_cons]
    omega

/-- Splitting at each non-overlapping occurrence of `pat`, the companion of
`replaceList`: Python's `s.split(old)`. -/
def splitOnList (pat : List Char) : List Char → List (List Char)
  | [] => [[]]
  | x :: xs =>
    if pat ≠ [] ∧ pat.isPrefixOf (x :: xs) then
      [] :: splitOnList pat (List.drop (pat.length - 1) xs)
    else
      match splitOnList pat xs with
      | [] => [[x]]
      | seg :: rest => (x :: seg) :: rest
termination_by xs => xs.length
decreasing_by
  · simp only [List.length_drop, List.length_cons]
    omega
  · simp only [List.length_cons]
    omega

/-- Joining with a separator: Python's `sep.join(segments)`. -/
def intercalateList (sep : List Char) : List (List Char) → List Char
  | [] => []
  | [s] => s
  | s :: rest => s ++ sep ++ intercalateList sep rest

/-- `content.replace(toChange, index)` from `RemoveComma.py`, on strings. -/
def strReplace (s old new : String) : String :=
  String.mk (replaceList old.data new.data s.data)

/-- The whole of `RemoveComma.py`: the folder is a list of
(file name, content) entries; each entry whose name ends in `.txt` has
every occurrence of `toChange` replaced by `idx` and is written back in
place; every other entry is left untouched. -/
def processFolder (toChange idx : String) (folder : List (String × String)) :
    List (String × String) :=
  folder.map (fun e =>
    if strEndsWith e.1 (".txt") then (e.1, strReplace e.2 toChange idx) else e)

/-! Helper lemmas about the filesystem model. -/

theorem mem_removeFile_files (fs : FS) (p q : String) :
    q ∈ (removeFile fs p).files ↔ q ∈ fs.files ∧ q ≠ p := by
  simp [removeFile, List.mem_filter, bne_iff_ne]

theorem mem_insertFile_files (fs : FS) (p q : String) :
    q ∈ (insertFile fs p).files ↔ q = p ∨ q ∈ fs.files := by
  by_cases hp : p ∈ fs.files
  · simp only [insertFile, if_pos hp]
    constructor
    · intro h
      exact Or.inr h
    · rintro (rfl | h)
      · exact hp
      · exact h
  · simp only [insertFile, if_neg hp, List.mem_cons]

theorem mem_moveFile_files (fs : FS) (src dst q : String) :
    q ∈ (moveFile fs src dst).files ↔ q = dst ∨ (q ∈ fs.files ∧ q ≠ src) := by
  simp [moveFile, mem_insertFile_files, mem_removeFile_files]

theorem dirs_removeFile (fs : FS) (p : String) : (removeFile fs p).dirs = fs.dirs := rfl

theorem dirs_insertFile (fs : FS) (p : String) : (insertFile fs p).dirs = fs.dirs := rfl

theorem dirs_moveFile (fs : FS) (src dst : String) : (moveFile fs src dst).dirs = fs.dirs := rfl

/-! Helper lemmas about paths.  A path built by `pathJoin` from a root that
does not end in a separator and a separator-free file name determines both
parts uniquely, so paths under distinct such roots never collide. -/

theorem sep_cancel :
    ∀ (a b f g : List Char), '/' ∉ f → '/' ∉ g →
      a ++ '/' :: f = b ++ '/' :: g → a = b ∧ f = g := by
  intro a
  induction a with
  | nil =>
    intro b f g hf hg h
    cases b with
    | nil =>
      rw [List.nil_append, List.nil_append] at h
      injection h with h1 h2
      exact ⟨rfl, h2⟩
    | cons y ys =>
      rw [List.nil_append, List.cons_append] at h
      injection h with h1 h2
      exact absurd (h2 ▸ List.mem_append_right ys (List.mem_cons_self '/' g)) hf
  | cons x xs ih =>
    intro b f g hf hg h
    cases b with
    | nil =>
      rw [List.nil_append, List.cons_append] at h
      injection h with h1 h2
      exact absurd (h2 ▸ List.mem_append_right xs (List.mem_cons_self '/' f)) hg
    | cons y ys =>
      rw [List.cons_append, List.cons_append] at h
      injection h with h1 h2
      obtain ⟨hb, hfg⟩ := ih ys f g hf hg h2
      subst h1
      subst hb
      exact ⟨rfl, hfg⟩

theorem pathJoin_data (a b : String) (ha : strEndsWith a ("/") = false) :
    (pathJoin a b).data = a.data ++ '/' :: b.data := by
  simp only [pathJoin, ha, Bool.false_eq_true, if_false, String.data_append]
  simp

theorem pathJoin_inj (a b f g : String)
    (ha : strEndsWith a ("/") = false) (hb : strEndsWith b ("/") = false)
    (hf : '/' ∉ f.data) (hg : '/' ∉ g.data)
    (h : pathJoin a f = pathJoin b g) : a = b ∧ f = g := by
  have hd : (pathJoin a f).data = (pathJoin b g).data := by rw [h]
  rw [pathJoin_data a f ha, pathJoin_data b g hb] at hd
  obtain ⟨h1, h2⟩ := sep_cancel a.data b.data f.data g.data hf hg hd
  exact ⟨String.ext h1, String.ext h2⟩

theorem pathJoin_ne (a b f g : String)
    (ha : strEndsWith a ("/") = false) (hb : strEndsWith b ("/") = false)
    (hab : a ≠ b) (hf : '/' ∉ f.data) (hg : '/' ∉ g.data) :
    pathJoin a f ≠ pathJoin b g := by
  intro h
  exact hab (pathJoin_inj a b f g ha hb hf hg h).1

/-! Evaluation lemmas for `processRow`: one per branch of the loop body. -/

theorem processRow_keyErrCat (label source dest : String) (fs : FS) (row : Row)
    (h1 : getCol row categoryCol = none) :
    processRow label source dest fs row = Except.error (PyErr.keyErr categoryCol, fs) := by
  simp [processRow, h1]

theorem processRow_keyErrFn (label source dest : String) (fs : FS) (row : Row)
    (h1 : getCol row categoryCol = some label)
    (h2 : getCol row filenameCol = none) :
    processRow label source dest fs row = Except.error (PyErr.keyErr filenameCol, fs) := by
  simp [processRow, h1, h2]

theorem processRow_skip (label source dest : String) (fs : FS) (row : Row) (c : String)
    (h1 : getCol row categoryCol = some c) (h2 : c ≠ label) :
    processRow label source dest fs row = Except.ok (fs, Outcome.skipped, []) := by
  simp [processRow, h1, h2]

theorem processRow_missing (label source dest : String) (fs : FS) (row : Row) (f : String)
    (h1 : getCol row categoryCol = some label)
    (h2 : getCol row filenameCol = some f)
    (h3 : fileExists fs (src_path source f) = false) :
    processRow label source dest fs row
      = Except.ok (fs, Outcome.sourceMissing, [notFoundLine (src_path source f)]) := by
  simp [processRow, h1, h2, h3]

theorem processRow_moved (label source dest : String) (fs : FS) (row : Row) (f : String)
    (h1 : getCol row categoryCol = some label)
    (h2 : getCol row filenameCol = some f)
    (h3 : fileExists fs (src_path source f) = true)
    (h4 : dirExists fs (parentDir (dst_path dest f)) = true) :
    processRow label source dest fs row
      = Except.ok (moveFile fs (src_path source f) (dst_path dest f), Outcome.moved,
          [movedLine (src_path source f) (dst_path dest f)]) := by
  simp [processRow, h1, h2, h3, h4]

theorem processRow_moveErr (label source dest : String) (fs : FS) (row : Row) (f : String)
    (h1 : getCol row categoryCol = some label)
    (h2 : getCol row filenameCol = some f)
    (h3 : fileExists fs (src_path source f) = true)
    (h4 : dirExists fs (parentDir (dst_path dest f)) = false) :
    processRow label source dest fs row
      = Except.error (PyErr.moveErr (dst_path dest f), fs) := by
  simp [processRow, h1, h2, h3, h4]

/-- Exhaustive inversion of a successful `processRow`: the record was
skipped, found missing, or moved, with the corresponding branch conditions. -/
theorem processRow_ok_inv (label source dest : String) (fs : FS) (row : Row)
    (fs' : FS) (o : Outcome) (ls : List String)
    (h : processRow label source dest fs row = Except.ok (fs', o, ls)) :
    (∃ c, getCol row categoryCol = some c ∧ c ≠ label ∧
       fs' = fs ∧ o = Outcome.skipped ∧ ls = []) ∨
    (∃ f, getCol row categoryCol = some label ∧ getCol row filenameCol = some f ∧
      ((fileExists fs (src_path source f) = false ∧ fs' = fs ∧ o = Outcome.sourceMissing ∧
          ls = [notFoundLine (src_path source f)]) ∨
       (fileExists fs (src_path source f) = true ∧
          dirExists fs (parentDir (dst_path dest f)) = true ∧
          fs' = moveFile fs (src_path source f) (dst_path dest f) ∧ o = Outcome.moved ∧
          ls = [movedLine (src_path source f) (dst_path dest f)]))) := by
  unfold processRow at h
  split at h
  · exact absurd h (by simp)
  · rename_i c hcat
    split at h
    · rename_i hcl
      split at h
      · exact absurd h (by simp)
      · rename_i f hfn
        split at h
        · rename_i hex
          split at h
          · rename_i hdir
            simp only [Except.ok.injEq, Prod.mk.injEq] at h
            obtain ⟨hfs, ho, hls⟩ := h
            exact Or.inr ⟨f, hcl ▸ hcat, hfn,
              Or.inr ⟨hex, hdir, hfs.symm, ho.symm, hls.symm⟩⟩
          · exact absurd h (by simp)
        · rename_i hex
          rw [Bool.not_eq_true] at hex
          simp only [Except.ok.injEq, Prod.mk.injEq] at h
          obtain ⟨hfs, ho, hls⟩ := h
          exact Or.inr ⟨f, hcl ▸ hcat, hfn,
            Or.inl ⟨hex, hfs.symm, ho.symm, hls.symm⟩⟩
    · rename_i hcl
      simp only [Except.ok.injEq, Prod.mk.injEq] at h
      obtain ⟨hfs, ho, hls⟩ := h
      exact Or.inl ⟨c, hcat, hcl, hfs.symm, ho.symm, hls.symm⟩

/-! Composition and inversion lemmas for the loop `runRows`. -/

theorem runRows_nil (label source dest : String) (fs : FS) :
    runRows label source dest fs [] = Except.ok (fs, [], []) := rfl

theorem runRows_cons_err (label source dest : String) (fs : FS) (row : Row)
    (rest : List Row) (e : PyErr × FS)
    (hp : processRow label source dest fs row = Except.error e) :
    runRows label source dest fs (row :: rest) = Except.error e := by
  unfold runRows
  rw [hp]

theorem runRows_cons_ok (label source dest : String) (fs fs1 fs2 : FS) (row : Row)
    (rest : List Row) (oc : Outcome) (ls1 : List String) (os : List Outcome)
    (ls2 : List String)
    (hp : processRow label source dest fs row = Except.ok (fs1, oc, ls1))
    (hr : runRows label source dest fs1 rest = Except.ok (fs2, os, ls2)) :
    runRows label source dest fs (row :: rest) = Except.ok (fs2, oc :: os, ls1 ++ ls2) := by
  unfold runRows
  simp only [hp, hr]

theorem runRows_cons_inv (label source dest : String) (fs fs2 : FS) (row : Row)
    (rest : List Row) (os : List Outcome) (ls : List String)
    (h : runRows label source dest fs (row :: rest) = Except.ok (fs2, os, ls)) :
    ∃ fs1 oc ls1 os' ls2,
      processRow label source dest fs row = Except.ok (fs1, oc, ls1) ∧
      runRows label source dest fs1 rest = Except.ok (fs2, os', ls2) ∧
      os = oc :: os' ∧ ls = ls1 ++ ls2 := by
  unfold runRows at h
  split at h
  · exact absurd h (by simp)
  · rename_i fs1 oc ls1 hp
    split at h
    · exact absurd h (by simp)
    · rename_i fs2' os' ls2 hr
      simp only [Except.ok.injEq, Prod.mk.injEq] at h
      obtain ⟨hfs, hos, hls⟩ := h
      exact ⟨fs1, oc, ls1, os', ls2, hp, hfs ▸ hr, hos.symm, hls.symm⟩

theorem runRows_length (label source dest : String) :
    ∀ (rows : List Row) (fs fs' : FS) (os : List Outcome) (ls : List String),
      runRows label source dest fs rows = Except.ok (fs', os, ls) →
      os.length = rows.length := by
  intro rows
  induction rows with
  | nil =>
    intro fs fs' os ls h
    rw [runRows_nil] at h
    simp only [Except.ok.injEq, Prod.mk.injEq] at h
    rw [← h.2.1]
    rfl
  | cons row rest ih =>
    intro fs fs' os ls h
    obtain ⟨fs1, oc, ls1, os', ls2, hp, hr, hos, hls⟩ :=
      runRows_cons_inv label source dest fs fs' row rest os ls h
    subst hos
    rw [List.length_cons, List.length_cons, ih fs1 fs' os' ls2 hr]

theorem runRows_append_inv (label source dest : String) :
    ∀ (xs ys : List Row) (fs fs2 : FS) (os : List Outcome) (ls : List String),
      runRows label source dest fs (xs ++ ys) = Except.ok (fs2, os, ls) →
      ∃ fs1 os1 ls1 os2 ls2,
        runRows label source dest fs xs = Except.ok (fs1, os1, ls1) ∧
        runRows label source dest fs1 ys = Except.ok (fs2, os2, ls2) ∧
        os = os1 ++ os2 ∧ ls = ls1 ++ ls2 := by
  intro xs
  induction xs with
  | nil =>
    intro ys fs fs2 os ls h
    exact ⟨fs, [], [], os, ls, runRows_nil label source dest fs, h, rfl, rfl⟩
  | cons row rest ih =>
    intro ys fs fs2 os ls h
    rw [List.cons_append] at h
    obtain ⟨fs1, oc, ls1, os', ls2, hp, hr, hos, hls⟩ :=
      runRows_cons_inv label source dest fs fs2 row (rest ++ ys) os ls h
    obtain ⟨fsm, osm1, lsm1, osm2, lsm2, hx, hy, hos2, hls2⟩ :=
      ih ys fs1 fs2 os' ls2 hr
    refine ⟨fsm, oc :: osm1, ls1 ++ lsm1, osm2, lsm2,
      runRows_cons_ok label source dest fs fs1 fsm row rest oc ls1 osm1 lsm1 hp hx,
      hy, ?_, ?_⟩
    · rw [hos, hos2, List.cons_append]
    · rw [hls, hls2, List.append_assoc]

/-- A path that is absent and is not the destination path of any row stays
absent through a single loop iteration. -/
theorem processRow_preserves_absence (label source dest : String) (fs fs' : FS)
    (row : Row) (o : Outcome) (ls : List String) (p : String)
    (hp : p ∉ fs.files)
    (hdst : ∀ f, getCol row filenameCol = some f → dst_path dest f ≠ p)
    (h : processRow label source dest fs row = Except.ok (fs', o, ls)) :
    p ∉ fs'.files := by
  rcases processRow_ok_inv label source dest fs row fs' o ls h with
    ⟨c, _, _, hfs, _, _⟩ | ⟨f, _, hfn, ⟨_, hfs, _, _⟩ | ⟨_, _, hfs, _, _⟩⟩
  · rw [hfs]
    exact hp
  · rw [hfs]
    exact hp
  · rw [hfs]
    intro hmem
    rcases (mem_moveFile_files fs (src_path source f) (dst_path dest f) p).1 hmem with
      heq | ⟨hin, _⟩
    · exact hdst f hfn heq.symm
    · exact hp hin

/-- A path that is absent and is not the destination path of any row stays
absent through the whole loop. -/
theorem runRows_preserves_absence (label source dest : String) :
    ∀ (rows : List Row) (fs fs' : FS) (os : List Outcome) (ls : List String) (p : String),
      p ∉ fs.files →
      (∀ r ∈ rows, ∀ f, getCol r filenameCol = some f → dst_path dest f ≠ p) →
      runRows label source dest fs rows = Except.ok (fs', os, ls) →
      p ∉ fs'.files := by
  intro rows
  induction rows with
  | nil =>
    intro fs fs' os ls p hp hdst h
    rw [runRows_nil] at h
    simp only [Except.ok.injEq, Prod.mk.injEq] at h
    rw [← h.1]
    exact hp
  | cons row rest ih =>
    intro fs fs' os ls p hp hdst h
    obtain ⟨fs1, oc, ls1, os', ls2, hpr, hr, _, _⟩ :=
      runRows_cons_inv label source dest fs fs' row rest os ls h
    have h1 : p ∉ fs1.files :=
      processRow_preserves_absence label source dest fs fs1 row oc ls1 p hp
        (fun f hf => hdst row (List.mem_cons_self row rest) f hf) hpr
    exact ih fs1 fs' os' ls2 p h1
      (fun r hr' f hf => hdst r (List.mem_cons_of_mem row hr') f hf) hr

/-- After a matching record is processed, its source path is gone (either
the move erased it or it was never there). -/
theorem processRow_matched_src_absent (label source dest : String) (fs fs' : FS)
    (row : Row) (o : Outcome) (ls : List String) (f : String)
    (h1 : getCol row categoryCol = some label)
    (h2 : getCol row filenameCol = some f)
    (hne : src_path source f ≠ dst_path dest f)
    (h : processRow label source dest fs row = Except.ok (fs', o, ls)) :
    src_path source f ∉ fs'.files := by
  rcases processRow_ok_inv label source dest fs row fs' o ls h with
    ⟨c, hc, hcne, _, _, _⟩ | ⟨g, _, hg, ⟨hex, hfs, _, _⟩ | ⟨_, _, hfs, _, _⟩⟩
  · rw [h1] at hc
    exact absurd (Option.some.inj hc).symm hcne
  · rw [h2] at hg
    obtain rfl := Option.some.inj hg
    rw [hfs]
    rw [fileExists] at hex
    exact of_decide_eq_false hex
  · rw [h2] at hg
    obtain rfl := Option.some.inj hg
    rw [hfs]
    intro hmem
    rcases (mem_moveFile_files fs (src_path source f) (dst_path dest f)
        (src_path source f)).1 hmem with heq | ⟨_, hne'⟩
    · exact hne heq
    · exact hne' rfl

theorem runRows_cons_okErr (label source dest : String) (fs fs1 : FS) (row : Row)
    (rest : List Row) (oc : Outcome) (ls1 : List String) (e : PyErr × FS)
    (hp : processRow label source dest fs row = Except.ok (fs1, oc, ls1))
    (hr : runRows label source dest fs1 rest = Except.error e) :
    runRows label source dest fs (row :: rest) = Except.error e := by
  unfold runRows
  simp only [hp, hr]

/-- After a successful run, the source path of every record that matched the
label is absent: it was either moved away or already missing, and no later
move can recreate it because destination paths live under the other root. -/
theorem runRows_matched_src_absent (label source dest : String)
    (hs : strEndsWith source ("/") = false) (hd : strEndsWith dest ("/") = false)
    (hsd : source ≠ dest) :
    ∀ (rows : List Row) (fs fs' : FS) (os : List Outcome) (ls : List String),
      (∀ r ∈ rows, ∀ f, getCol r filenameCol = some f → '/' ∉ f.data) →
      runRows label source dest fs rows = Except.ok (fs', os, ls) →
      ∀ r ∈ rows, getCol r categoryCol = some label →
        ∀ f, getCol r filenameCol = some f → src_path source f ∉ fs'.files := by
  intro rows
  induction rows with
  | nil =>
    intro fs fs' os ls hsl h r hr
    exact absurd hr (List.not_mem_nil r)
  | cons row rest ih =>
    intro fs fs' os ls hsl h r hr hcat f hfn
    obtain ⟨fs1, oc, ls1, os', ls2, hp, hrun, _, _⟩ :=
      runRows_cons_inv label source dest fs fs' row rest os ls h
    rcases List.mem_cons.1 hr with rfl | hr'
    · have hf : '/' ∉ f.data := hsl r (List.mem_cons_self r rest) f hfn
      have hne : src_path source f ≠ dst_path dest f :=
        pathJoin_ne source dest f f hs hd hsd hf hf
      have h1 : src_path source f ∉ fs1.files :=
        processRow_matched_src_absent label source dest fs fs1 r oc ls1 f hcat hfn hne hp
      exact runRows_preserves_absence label source dest rest fs1 fs' os' ls2
        (src_path source f) h1
        (fun r' hr'' g hg =>
          pathJoin_ne dest source g f hd hs (fun hh => hsd hh.symm)
            (hsl r' (List.mem_cons_of_mem r hr'') g hg) hf)
        hrun
    · exact ih fs1 fs' os' ls2
        (fun r' hr'' g hg => hsl r' (List.mem_cons_of_mem row hr'') g hg)
        hrun r hr' hcat f hfn

/-- Re-running the loop on a filesystem where every matching record's
source is absent succeeds, changes nothing, and turns every outcome of the
original run into its `rerunOutcome`. -/
theorem runRows_rerun (label source dest : String) :
    ∀ (rows : List Row) (fs0 fsA fs : FS) (os0 : List Outcome) (ls0 : List String),
      runRows label source dest fs0 rows = Except.ok (fsA, os0, ls0) →
      (∀ r ∈ rows, getCol r categoryCol = some label →
        ∀ f, getCol r filenameCol = some f → src_path source f ∉ fs.files) →
      ∃ ls2, runRows label source dest fs rows
        = Except.ok (fs, os0.map rerunOutcome, ls2) := by
  intro rows
  induction rows with
  | nil =>
    intro fs0 fsA fs os0 ls0 h habs
    rw [runRows_nil] at h
    simp only [Except.ok.injEq, Prod.mk.injEq] at h
    rw [← h.2.1]
    refine ⟨[], ?_⟩
    simp [runRows_nil]
  | cons row rest ih =>
    intro fs0 fsA fs os0 ls0 h habs
    obtain ⟨fs1, oc, ls1, os', ls2, hp, hrun, hos, hls⟩ :=
      runRows_cons_inv label source dest fs0 fsA row rest os0 ls0 h
    subst hos
    obtain ⟨lsr, hrr⟩ := ih fs1 fsA fs os' ls2 hrun
      (fun r hr => habs r (List.mem_cons_of_mem row hr))
    rcases processRow_ok_inv label source dest fs0 row fs1 oc ls1 hp with
      ⟨c, hcat, hcne, _, hoc, _⟩ | ⟨f, hcat, hfn, hbr⟩
    · have hp2 : processRow label source dest fs row = Except.ok (fs, Outcome.skipped, []) :=
        processRow_skip label source dest fs row c hcat hcne
      refine ⟨lsr, ?_⟩
      rw [List.map_cons, hoc]
      exact runRows_cons_ok label source dest fs fs fs row rest Outcome.skipped []
        (os'.map rerunOutcome) lsr hp2 hrr
    · have habs0 : src_path source f ∉ fs.files :=
        habs row (List.mem_cons_self row rest) hcat f hfn
      have hex2 : fileExists fs (src_path source f) = false := by
        simp [fileExists, habs0]
      have hp2 := processRow_missing label source dest fs row f hcat hfn hex2
      refine ⟨notFoundLine (src_path source f) :: lsr, ?_⟩
      have hstep := runRows_cons_ok label source dest fs fs fs row rest
        Outcome.sourceMissing [notFoundLine (src_path source f)]
        (os'.map rerunOutcome) lsr hp2 hrr
      have hoc2 : rerunOutcome oc = Outcome.sourceMissing := by
        rcases hbr with ⟨_, _, hoc, _⟩ | ⟨_, _, _, hoc, _⟩
        · rw [hoc]
          rfl
        · rw [hoc]
          rfl
      rw [List.map_cons, hoc2]
      exact hstep

/-- A run in which every record either does not match the label or has a
missing source completes without error and touches nothing. -/
theorem runRows_no_moves (label source dest : String) :
    ∀ (rows : List Row) (fs : FS),
      (∀ r ∈ rows, ∃ c, getCol r categoryCol = some c ∧
        (c = label → ∃ f, getCol r filenameCol = some f ∧
          fileExists fs (src_path source f) = false)) →
      ∃ os ls, runRows label source dest fs rows = Except.ok (fs, os, ls) ∧
        ∀ o ∈ os, o = Outcome.skipped ∨ o = Outcome.sourceMissing := by
  intro rows
  induction rows with
  | nil =>
    intro fs h
    exact ⟨[], [], runRows_nil label source dest fs, by simp⟩
  | cons row rest ih =>
    intro fs h
    obtain ⟨c, hcat, himp⟩ := h row (List.mem_cons_self row rest)
    obtain ⟨os, ls, hrun, hall⟩ := ih fs (fun r hr => h r (List.mem_cons_of_mem row hr))
    by_cases hcl : c = label
    · subst hcl
      obtain ⟨f, hfn, hex⟩ := himp rfl
      have hp := processRow_missing c source dest fs row f hcat hfn hex
      refine ⟨Outcome.sourceMissing :: os, notFoundLine (src_path source f) :: ls, ?_, ?_⟩
      · exact runRows_cons_ok c source dest fs fs fs row rest Outcome.sourceMissing
          [notFoundLine (src_path source f)] os ls hp hrun
      · intro o ho
        rcases List.mem_cons.1 ho with rfl | ho'
        · exact Or.inr rfl
        · exact hall o ho'
    · have hp := processRow_skip label source dest fs row c hcat hcl
      refine ⟨Outcome.skipped :: os, ls, ?_, ?_⟩
      · exact runRows_cons_ok label source dest fs fs fs row rest Outcome.skipped
          [] os ls hp hrun
      · intro o ho
        rcases List.mem_cons.1 ho with rfl | ho'
        · exact Or.inl rfl
        · exact hall o ho'

/-- The loop's printed output consists of exactly one line per non-skipped
record, each either a `Moved:` line or a `File not found:` line; nothing
else (in particular no summary) is ever printed. -/
theorem runRows_lines (label source dest : String) :
    ∀ (rows : List Row) (fs fs' : FS) (os : List Outcome) (ls : List String),
      runRows label source dest fs rows = Except.ok (fs', os, ls) →
      ls.length = (os.filter (fun o => decide (o ≠ Outcome.skipped))).length ∧
      ∀ l ∈ ls, (∃ sp dp, l = movedLine sp dp) ∨ (∃ sp, l = notFoundLine sp) := by
  intro rows
  induction rows with
  | nil =>
    intro fs fs' os ls h
    rw [runRows_nil] at h
    simp only [Except.ok.injEq, Prod.mk.injEq] at h
    rw [← h.2.1, ← h.2.2]
    exact ⟨rfl, by simp⟩
  | cons row rest ih =>
    intro fs fs' os ls h
    obtain ⟨fs1, oc, ls1, os', ls2, hp, hrun, hos, hls⟩ :=
      runRows_cons_inv label source dest fs fs' row rest os ls h
    subst hos
    subst hls
    obtain ⟨ihl, ihm⟩ := ih fs1 fs' os' ls2 hrun
    rcases processRow_ok_inv label source dest fs row fs1 oc ls1 hp with
      ⟨c, _, _, _, hoc, hls1⟩ | ⟨f, _, _, ⟨_, _, hoc, hls1⟩ | ⟨_, _, _, hoc, hls1⟩⟩
    · subst hoc
      subst hls1
      refine ⟨by simpa using ihl, ?_⟩
      intro l hl
      exact ihm l (by simpa using hl)
    · subst hoc
      subst hls1
      refine ⟨by simpa using ihl, ?_⟩
      intro l hl
      rcases List.mem_cons.1 (by simpa using hl) with rfl | hl'
      · exact Or.inr ⟨src_path source f, rfl⟩
      · exact ihm l hl'
    · subst hoc
      subst hls1
      refine ⟨by simpa using ihl, ?_⟩
      intro l hl
      rcases List.mem_cons.1 (by simpa using hl) with rfl | hl'
      · exact Or.inl ⟨src_path source f, dst_path dest f, rfl⟩
      · exact ihm l hl'

/-- If every row before some row is non-matching and that row matches but
has no filename column, the loop dies with `KeyError('filename')` with the
filesystem untouched. -/
theorem runRows_keyErrFn (label source dest : String) :
    ∀ (l1 : List Row) (fs : FS) (row : Row) (rest : List Row),
      (∀ r ∈ l1, ∃ c, getCol r categoryCol = some c ∧ c ≠ label) →
      getCol row categoryCol = some label →
      getCol row filenameCol = none →
      runRows label source dest fs (l1 ++ row :: rest)
        = Except.error (PyErr.keyErr filenameCol, fs) := by
  intro l1
  induction l1 with
  | nil =>
    intro fs row rest hl hcat hfn
    rw [List.nil_append]
    exact runRows_cons_err label source dest fs row rest _
      (processRow_keyErrFn label source dest fs row hcat hfn)
  | cons r l1' ih =>
    intro fs row rest hl hcat hfn
    obtain ⟨c, hc, hcne⟩ := hl r (List.mem_cons_self r l1')
    rw [List.cons_append]
    exact runRows_cons_okErr label source dest fs fs r (l1' ++ row :: rest)
      Outcome.skipped [] _ (processRow_skip label source dest fs r c hc hcne)
      (ih fs row rest (fun r' hr' => hl r' (List.mem_cons_of_mem r hr')) hcat hfn)

/-! Helper lemmas for the text-substitution utility. -/

theorem splitOnList_ne_nil (pat : List Char) (xs : List Char) :
    splitOnList pat xs ≠ [] := by
  cases xs with
  | nil => simp [splitOnList]
  | cons x xs =>
    unfold splitOnList
    split
    · simp
    · split
      · simp
      · simp

/-- Python's documented equivalence `s.replace(old, new) == new.join(s.split(old))`,
for the scanning functions of the model. -/
theorem replaceList_eq_intercalate (pat rep : List Char) :
    ∀ (xs : List Char),
      replaceList pat rep xs = intercalateList rep (splitOnList pat xs) := by
  intro xs
  induction xs using replaceList.induct pat rep with
  | case1 => simp [replaceList, splitOnList, intercalateList]
  | case2 x xs hc ihx =>
    unfold replaceList splitOnList
    rw [if_pos hc, if_pos hc, ihx]
    obtain ⟨s, S, hS⟩ : ∃ s S,
        splitOnList pat (List.drop (pat.length - 1) xs) = s :: S := by
      cases hS0 : splitOnList pat (List.drop (pat.length - 1) xs) with
      | nil => exact absurd hS0 (splitOnList_ne_nil pat _)
      | cons a b => exact ⟨a, b, rfl⟩
    rw [hS]
    simp [intercalateList]
  | case3 x xs hc ihx =>
    unfold replaceList splitOnList
    rw [if_neg hc, if_neg hc, ihx]
    obtain ⟨s, S, hS⟩ : ∃ s S, splitOnList pat xs = s :: S := by
      cases hS0 : splitOnList pat xs with
      | nil => exact absurd hS0 (splitOnList_ne_nil pat xs)
      | cons a b => exact ⟨a, b, rfl⟩
    rw [hS]
    cases S with
    | nil => simp [intercalateList]
    | cons s2 S2 => simp [intercalateList]

/-! The claims. -/

/-- C1, counterexample to the claim as stated: (a) when the destination
directory does not exist, processing a matching record whose source exists
dies with an uncaught error instead of moving — afterwards the file is
still at the source path and absent from the destination; (b) when the
configured source and destination directories coincide, the record is
reported moved yet the file still exists at its source path. -/
theorem c1_counterexample :
    (processRow ("Bus") ("s") ("d") (FS.mk (["s"]) (["s/a.wav"]))
        ([(categoryCol, "Bus"), (filenameCol, "a.wav")])
      = Except.error (PyErr.moveErr ("d/a.wav"), FS.mk (["s"]) (["s/a.wav"]))) ∧
    (fileExists (FS.mk (["s"]) (["s/a.wav"])) ("d/a.wav") = false) ∧
    (fileExists (FS.mk (["s"]) (["s/a.wav"])) ("s/a.wav") = true) ∧
    (processRow ("Bus") ("r") ("r") (FS.mk (["r"]) (["r/a.wav"]))
        ([(categoryCol, "Bus"), (filenameCol, "a.wav")])
      = Except.ok (FS.mk (["r"]) (["r/a.wav"]), Outcome.moved,
          [movedLine ("r/a.wav") ("r/a.wav")])) ∧
    (fileExists (FS.mk (["r"]) (["r/a.wav"])) ("r/a.wav") = true) :=
  ⟨rfl, rfl, rfl, rfl, rfl⟩

/-- C1 (amended): for a record whose label matches the selector and whose
file exists at the resolved `src_path`, provided the destination directory
already exists and the resolved destination path differs from the source
path, processing the record moves the file: afterwards it exists at
`dst_path` and no longer exists at `src_path` (a move, not a copy). -/
theorem c1_move_not_copy (label source dest : String) (fs : FS) (row : Row) (f : String)
    (hcat : getCol row categoryCol = some label)
    (hfn : getCol row filenameCol = some f)
    (hsrc : fileExists fs (src_path source f) = true)
    (hdir : dirExists fs (parentDir (dst_path dest f)) = true)
    (hne : src_path source f ≠ dst_path dest f) :
    processRow label source dest fs row
      = Except.ok (moveFile fs (src_path source f) (dst_path dest f), Outcome.moved,
          [movedLine (src_path source f) (dst_path dest f)]) ∧
    fileExists (moveFile fs (src_path source f) (dst_path dest f)) (dst_path dest f) = true ∧
    fileExists (moveFile fs (src_path source f) (dst_path dest f)) (src_path source f) = false := by
  refine ⟨processRow_moved label source dest fs row f hcat hfn hsrc hdir, ?_, ?_⟩
  · simp [fileExists, mem_moveFile_files]
  · simp [fileExists, mem_moveFile_files, hne]

theorem c1_move_not_copy_witness :
    fileExists (moveFile (FS.mk (["s", "d"]) (["s/a.wav"])) ("s/a.wav") ("d/a.wav"))
      ("d/a.wav") = true ∧
    fileExists (moveFile (FS.mk (["s", "d"]) (["s/a.wav"])) ("s/a.wav") ("d/a.wav"))
      ("s/a.wav") = false := by
  have h := c1_move_not_copy ("Bus") ("s") ("d") (FS.mk (["s", "d"]) (["s/a.wav"]))
    ([(categoryCol, "Bus"), (filenameCol, "a.wav")]) ("a.wav") rfl rfl rfl rfl (by decide)
  exact ⟨h.2.1, h.2.2⟩

/-- C2: a matching record whose source file does not exist causes no
filesystem mutation, is reported `SourceMissing` with the script's
`File not found` line, does not raise, and the loop over the remaining
records proceeds exactly as it would on its own (so the batch completes
whenever the rest does). -/
theorem c2_source_missing (label source dest : String) (fs : FS) (row : Row)
    (rest : List Row) (f : String)
    (hcat : getCol row categoryCol = some label)
    (hfn : getCol row filenameCol = some f)
    (hsrc : fileExists fs (src_path source f) = false) :
    processRow label source dest fs row
      = Except.ok (fs, Outcome.sourceMissing, [notFoundLine (src_path source f)]) ∧
    runRows label source dest fs (row :: rest)
      = Except.map (fun t => (t.1, Outcome.sourceMissing :: t.2.1,
          notFoundLine (src_path source f) :: t.2.2))
        (runRows label source dest fs rest) := by
  have hp := processRow_missing label source dest fs row f hcat hfn hsrc
  refine ⟨hp, ?_⟩
  cases hr : runRows label source dest fs rest with
  | error e =>
    rw [runRows_cons_okErr label source dest fs fs row rest Outcome.sourceMissing
      [notFoundLine (src_path source f)] e hp hr]
    rfl
  | ok t =>
    obtain ⟨fs2, os, ls2⟩ := t
    rw [runRows_cons_ok label source dest fs fs fs2 row rest Outcome.sourceMissing
      [notFoundLine (src_path source f)] os ls2 hp hr]
    rfl

theorem c2_source_missing_witness :
    runRows ("Bus") ("s") ("d") (FS.mk (["s", "d"]) (["s/b.wav"]))
      ([[(categoryCol, "Bus"), (filenameCol, "a.wav")],
        [(categoryCol, "Bus"), (filenameCol, "b.wav")]])
      = Except.map (fun t => (t.1, Outcome.sourceMissing :: t.2.1,
          notFoundLine (src_path ("s") ("a.wav")) :: t.2.2))
        (runRows ("Bus") ("s") ("d") (FS.mk (["s", "d"]) (["s/b.wav"]))
          ([[(categoryCol, "Bus"), (filenameCol, "b.wav")]])) :=
  (c2_source_missing ("Bus") ("s") ("d") (FS.mk (["s", "d"]) (["s/b.wav"]))
    ([(categoryCol, "Bus"), (filenameCol, "a.wav")])
    ([[(categoryCol, "Bus"), (filenameCol, "b.wav")]]) ("a.wav") rfl rfl rfl).2

/-- C3, counterexample to the claim as stated: the relocator never creates
the destination directory — with the directory absent, processing a
matching record whose source exists fails (and creates nothing) rather
than creating the directory first. -/
theorem c3_counterexample :
    processRow ("Bus") ("s") ("d") (FS.mk (["s"]) (["s/a.wav"]))
        ([(categoryCol, "Bus"), (filenameCol, "a.wav")])
      = Except.error (PyErr.moveErr ("d/a.wav"), FS.mk (["s"]) (["s/a.wav"])) ∧
    dirExists (FS.mk (["s"]) (["s/a.wav"])) ("d") = false :=
  ⟨rfl, rfl⟩

/-- C3 (amended): the relocator performs no directory creation at all —
processing never changes the set of directories; a move targeting a
label's destination directory succeeds when that directory already exists
(so running against a destination root that already contains the target
subfolder does not fail), and fails with an uncaught error when it is
absent. -/
theorem c3_no_dir_creation (label source dest : String) (fs : FS) (row : Row) :
    (∀ fs' o ls, processRow label source dest fs row = Except.ok (fs', o, ls) →
      fs'.dirs = fs.dirs) ∧
    (∀ f, getCol row categoryCol = some label → getCol row filenameCol = some f →
      fileExists fs (src_path source f) = true →
      dirExists fs (parentDir (dst_path dest f)) = true →
      processRow label source dest fs row
        = Except.ok (moveFile fs (src_path source f) (dst_path dest f), Outcome.moved,
            [movedLine (src_path source f) (dst_path dest f)])) ∧
    (∀ f, getCol row categoryCol = some label → getCol row filenameCol = some f →
      fileExists fs (src_path source f) = true →
      dirExists fs (parentDir (dst_path dest f)) = false →
      processRow label source dest fs row
        = Except.error (PyErr.moveErr (dst_path dest f), fs)) := by
  refine ⟨?_, ?_, ?_⟩
  · intro fs' o ls h
    rcases processRow_ok_inv label source dest fs row fs' o ls h with
      ⟨c, _, _, hfs, _, _⟩ | ⟨f, _, _, ⟨_, hfs, _, _⟩ | ⟨_, _, hfs, _, _⟩⟩
    · rw [hfs]
    · rw [hfs]
    · rw [hfs, dirs_moveFile]
  · intro f h1 h2 h3 h4
    exact processRow_moved label source dest fs row f h1 h2 h3 h4
  · intro f h1 h2 h3 h4
    exact processRow_moveErr label source dest fs row f h1 h2 h3 h4

theorem c3_no_dir_creation_witness :
    processRow ("Bus") ("s") ("d") (FS.mk (["s", "d"]) (["s/a.wav"]))
        ([(categoryCol, "Bus"), (filenameCol, "a.wav")])
      = Except.ok (moveFile (FS.mk (["s", "d"]) (["s/a.wav"])) ("s/a.wav") ("d/a.wav"),
          Outcome.moved, [movedLine ("s/a.wav") ("d/a.wav")]) ∧
    (moveFile (FS.mk (["s", "d"]) (["s/a.wav"])) ("s/a.wav") ("d/a.wav")).dirs
      = (FS.mk (["s", "d"]) (["s/a.wav"])).dirs ∧
    processRow ("Bus") ("s") ("dx") (FS.mk (["s"]) (["s/a.wav"]))
        ([(categoryCol, "Bus"), (filenameCol, "a.wav")])
      = Except.error (PyErr.moveErr ("dx/a.wav"), FS.mk (["s"]) (["s/a.wav"])) := by
  have h1 := c3_no_dir_creation ("Bus") ("s") ("d") (FS.mk (["s", "d"]) (["s/a.wav"]))
    ([(categoryCol, "Bus"), (filenameCol, "a.wav")])
  have h2 := c3_no_dir_creation ("Bus") ("s") ("dx") (FS.mk (["s"]) (["s/a.wav"]))
    ([(categoryCol, "Bus"), (filenameCol, "a.wav")])
  have hmv := h1.2.1 ("a.wav") rfl rfl rfl rfl
  exact ⟨hmv, h1.1 _ _ _ hmv, h2.2.2 ("a.wav") rfl rfl rfl rfl⟩

/-- C4, counterexample to the claim as stated: a concrete run over one
matching record with a missing source prints exactly the one per-record
line and nothing else — no final summary line with aggregate counts is
ever emitted (the script keeps no counters). -/
theorem c4_counterexample :
    runRows ("Bus") ("s") ("d") (FS.mk (["s", "d"]) ([]))
        ([[(categoryCol, "Bus"), (filenameCol, "a.wav")]])
      = Except.ok (FS.mk (["s", "d"]) ([]), [Outcome.sourceMissing],
          [notFoundLine ("s/a.wav")]) :=
  rfl

/-- C4 (amended): the batch driver prints only the per-record lines — one
record outcome per row, and one line per non-skipped record, each line
being either a `Moved:` line or a `File not found:` line; it accumulates
no counts and emits no final summary line. -/
theorem c4_per_record_lines_only (label source dest : String) (rows : List Row)
    (fs fs' : FS) (os : List Outcome) (ls : List String)
    (h : runRows label source dest fs rows = Except.ok (fs', os, ls)) :
    os.length = rows.length ∧
    ls.length = (os.filter (fun o => decide (o ≠ Outcome.skipped))).length ∧
    ∀ l ∈ ls, (∃ sp dp, l = movedLine sp dp) ∨ (∃ sp, l = notFoundLine sp) :=
  ⟨runRows_length label source dest rows fs fs' os ls h,
   (runRows_lines label source dest rows fs fs' os ls h).1,
   (runRows_lines label source dest rows fs fs' os ls h).2⟩

theorem c4_per_record_lines_only_witness :
    ([notFoundLine ("s/a.wav")]).length
      = (([Outcome.sourceMissing]).filter (fun o => decide (o ≠ Outcome.skipped))).length :=
  (c4_per_record_lines_only ("Bus") ("s") ("d")
    ([[(categoryCol, "Bus"), (filenameCol, "a.wav")]])
    (FS.mk (["s", "d"]) ([])) (FS.mk (["s", "d"]) ([]))
    ([Outcome.sourceMissing]) ([notFoundLine ("s/a.wav")]) rfl).2.1

/-- C5: a record whose label does not match the selector causes no
filesystem mutation and prints nothing; the result is the same for every
filesystem (so the source file's existence is never even consulted), the
record's outcome is `skipped`, and appending such an outcome to a run's
outcomes increments exactly the `skipped` count of the derived report. -/
theorem c5_skip_no_effect (label source dest : String) (row : Row) (c : String)
    (hcat : getCol row categoryCol = some c) (hne : c ≠ label) :
    (∀ fs2 : FS, processRow label source dest fs2 row
      = Except.ok (fs2, Outcome.skipped, [])) ∧
    (∀ os : List Outcome,
      mkReport (os ++ [Outcome.skipped])
        = Report.mk (mkReport os).moved (mkReport os).missing
            ((mkReport os).skipped + 1)) := by
  refine ⟨fun fs2 => processRow_skip label source dest fs2 row c hcat hne, ?_⟩
  intro os
  simp [mkReport, List.countP_append]

theorem c5_skip_no_effect_witness :
    processRow ("Bus") ("s") ("d") (FS.mk (["s", "d"]) (["s/b.wav"]))
        ([(categoryCol, "Car"), (filenameCol, "b.wav")])
      = Except.ok (FS.mk (["s", "d"]) (["s/b.wav"]), Outcome.skipped, []) ∧
    mkReport ([Outcome.moved] ++ [Outcome.skipped])
      = Report.mk (mkReport ([Outcome.moved])).moved (mkReport ([Outcome.moved])).missing
          ((mkReport ([Outcome.moved])).skipped + 1) := by
  have h := c5_skip_no_effect ("Bus") ("s") ("d")
    ([(categoryCol, "Car"), (filenameCol, "b.wav")]) ("Car") rfl (by decide)
  exact ⟨h.1 _, h.2 ([Outcome.moved])⟩

/-- Modelled from the spec: the Path Resolver of §4.3 — given `sourceRoot`,
`destinationRoot`, `outputFolderName`, a possibly empty prefix for the
file name and the record's file name, produce the source and destination
paths, the prefix applied only on the source side. -/
def resolvePathsSpec (sourceRoot destinationRoot outputFolderName fnamePre filename : String) :
    String × String :=
  (pathJoin sourceRoot (fnamePre ++ filename),
   pathJoin (pathJoin destinationRoot outputFolderName) filename)

/-- C6: the script's path computation (`src_path`, `dst_path` over
`dest = join(destinationRoot, label)`) is exactly the spec's pure path
resolver instantiated with the empty file-name prefix: `sourcePath =
join(sourceRoot, "" ++ filename)` and `destinationPath =
join(destinationRoot, label, filename)` — the prefix only ever touches
the source side.  (Pure functions; no I/O exists in these definitions.) -/
theorem c6_path_resolution (source destinationRoot lab f : String) :
    (src_path source f, dst_path (destFor destinationRoot lab) f)
      = resolvePathsSpec source destinationRoot lab ("") f := by
  unfold resolvePathsSpec src_path dst_path destFor
  rw [show ("" : String) ++ f = f from String.ext (by simp)]

/-- C7: idempotence — re-running the loop immediately after a successful
run (same table, same label, same roots, where the two roots are distinct
directories not ending in a separator and the table's file names contain
no separator) moves nothing: the filesystem is returned unchanged, every
record that was moved (or already missing) in the first run now reports
`SourceMissing`, and every skipped record is skipped again. -/
theorem c7_idempotent (label source dest : String) (rows : List Row)
    (fs fs1 : FS) (os1 : List Outcome) (ls1 : List String)
    (hs : strEndsWith source ("/") = false)
    (hd : strEndsWith dest ("/") = false)
    (hsd : source ≠ dest)
    (hfn : ∀ r ∈ rows, ∀ f, getCol r filenameCol = some f → '/' ∉ f.data)
    (h1 : runRows label source dest fs rows = Except.ok (fs1, os1, ls1)) :
    ∃ ls2, runRows label source dest fs1 rows
      = Except.ok (fs1, os1.map rerunOutcome, ls2) :=
  runRows_rerun label source dest rows fs fs1 fs1 os1 ls1 h1
    (runRows_matched_src_absent label source dest hs hd hsd rows fs fs1 os1 ls1 hfn h1)

theorem c7_idempotent_witness :
    ∃ ls2, runRows ("Bus") ("s") ("d") (FS.mk (["s", "d"]) (["d/a.wav"]))
      ([[(categoryCol, "Bus"), (filenameCol, "a.wav")],
        [(categoryCol, "Car"), (filenameCol, "b.wav")]])
      = Except.ok (FS.mk (["s", "d"]) (["d/a.wav"]),
          ([Outcome.moved, Outcome.skipped]).map rerunOutcome, ls2) := by
  refine c7_idempotent ("Bus") ("s") ("d")
    ([[(categoryCol, "Bus"), (filenameCol, "a.wav")],
      [(categoryCol, "Car"), (filenameCol, "b.wav")]])
    (FS.mk (["s", "d"]) (["s/a.wav"])) (FS.mk (["s", "d"]) (["d/a.wav"]))
    ([Outcome.moved, Outcome.skipped]) ([movedLine ("s/a.wav") ("d/a.wav")])
    rfl rfl (by decide) ?_ rfl
  intro r hr f hf
  rcases List.mem_cons.1 hr with rfl | hr2
  · have hf2 : some ("a.wav") = some f := hf
    obtain rfl := (Option.some.inj hf2).symm
    decide
  · rcases List.mem_cons.1 hr2 with rfl | hr3
    · have hf2 : some ("b.wav") = some f := hf
      obtain rfl := (Option.some.inj hf2).symm
      decide
    · exact absurd hr3 (List.not_mem_nil r)

/-- C8, counterexample to the claim as stated, in both directions:
(a) an annotation table whose rows lack the required `filename` column is
processed successfully with exit status 0 when no row matches the label —
a missing required column does not make the run fail; (b) the process also
terminates with a non-zero status in a case that is not an
annotation-load failure, namely when a move fails because the destination
directory is absent. -/
theorem c8_counterexample :
    (runScript (some ([[(categoryCol, "x")]])) ("door_wood_creaks") ("s") ("d")
        (FS.mk (["s", "d"]) (["s/a.wav"]))
      = Except.ok (FS.mk (["s", "d"]) (["s/a.wav"]), [Outcome.skipped], [])) ∧
    (exitCode (runScript (some ([[(categoryCol, "x")]])) ("door_wood_creaks") ("s") ("d")
        (FS.mk (["s", "d"]) (["s/a.wav"]))) = 0) ∧
    (runScript (some ([[(categoryCol, "Bus"), (filenameCol, "a.wav")]]))
        ("Bus") ("s") ("nodir") (FS.mk (["s"]) (["s/a.wav"]))
      = Except.error (PyErr.moveErr ("nodir/a.wav"), FS.mk (["s"]) (["s/a.wav"]))) ∧
    (exitCode (runScript (some ([[(categoryCol, "Bus"), (filenameCol, "a.wav")]]))
        ("Bus") ("s") ("nodir") (FS.mk (["s"]) (["s/a.wav"]))) = 1) :=
  ⟨rfl, rfl, rfl, rfl⟩

/-- C8 (amended): if the annotation file is absent or unreadable the run
fails before any file on disk is touched; a missing `category` column
kills the run at the first record and a missing `filename` column at the
first matching record — in both cases with the filesystem untouched — but
a table in which no record reaches the lookup (in particular one with no
matching rows when only `filename` is absent) completes successfully
despite the missing column; and a run all of whose records are unmatched
or have missing sources completes with exit status 0 and touches nothing
(missing sources are never fatal).  A failing move is a further non-zero
exit case, shown in the counterexample. -/
theorem c8_exit_behavior (label source dest : String) :
    (∀ fs, runScript none label source dest fs = Except.error (PyErr.loadErr, fs)) ∧
    (∀ fs (row : Row) (rest : List Row), getCol row categoryCol = none →
      runRows label source dest fs (row :: rest)
        = Except.error (PyErr.keyErr categoryCol, fs)) ∧
    (∀ fs (l1 : List Row) (row : Row) (rest : List Row),
      (∀ r ∈ l1, ∃ c, getCol r categoryCol = some c ∧ c ≠ label) →
      getCol row categoryCol = some label →
      getCol row filenameCol = none →
      runRows label source dest fs (l1 ++ row :: rest)
        = Except.error (PyErr.keyErr filenameCol, fs)) ∧
    (∀ fs (rows : List Row),
      (∀ r ∈ rows, ∃ c, getCol r categoryCol = some c ∧
        (c = label → ∃ f, getCol r filenameCol = some f ∧
          fileExists fs (src_path source f) = false)) →
      ∃ os ls, runRows label source dest fs rows = Except.ok (fs, os, ls) ∧
        exitCode (runRows label source dest fs rows) = 0) := by
  refine ⟨fun fs => rfl, ?_, ?_, ?_⟩
  · intro fs row rest hc
    exact runRows_cons_err label source dest fs row rest _
      (processRow_keyErrCat label source dest fs row hc)
  · intro fs l1 row rest h1 h2 h3
    exact runRows_keyErrFn label source dest l1 fs row rest h1 h2 h3
  · intro fs rows hh
    obtain ⟨os, ls, hrun, _⟩ := runRows_no_moves label source dest rows fs hh
    refine ⟨os, ls, hrun, ?_⟩
    rw [hrun]
    rfl

theorem c8_exit_behavior_witness :
    (runScript none ("Bus") ("s") ("d") (FS.mk ([]) ([]))
      = Except.error (PyErr.loadErr, FS.mk ([]) ([]))) ∧
    (runRows ("Bus") ("s") ("d") (FS.mk (["s"]) (["s/a.wav"]))
        ([[(filenameCol, "a.wav")]])
      = Except.error (PyErr.keyErr categoryCol, FS.mk (["s"]) (["s/a.wav"]))) ∧
    (runRows ("Bus") ("s") ("d") (FS.mk (["s"]) (["s/a.wav"]))
        ([[(categoryCol, "Car")]] ++ ([(categoryCol, "Bus")]) :: ([]))
      = Except.error (PyErr.keyErr filenameCol, FS.mk (["s"]) (["s/a.wav"]))) ∧
    (∃ os ls, runRows ("Bus") ("s") ("d") (FS.mk (["s"]) ([]))
        ([[(categoryCol, "Bus"), (filenameCol, "a.wav")]])
      = Except.ok (FS.mk (["s"]) ([]), os, ls) ∧
      exitCode (runRows ("Bus") ("s") ("d") (FS.mk (["s"]) ([]))
        ([[(categoryCol, "Bus"), (filenameCol, "a.wav")]])) = 0) := by
  have h := c8_exit_behavior ("Bus") ("s") ("d")
  refine ⟨h.1 _, h.2.1 _ _ _ rfl, h.2.2.1 _ ([[(categoryCol, "Car")]])
    ([(categoryCol, "Bus")]) ([]) ?_ rfl rfl, h.2.2.2 _ _ ?_⟩
  · intro r hr
    rcases List.mem_cons.1 hr with rfl | hr2
    · exact ⟨"Car", rfl, by decide⟩
    · exact absurd hr2 (List.not_mem_nil r)
  · intro r hr
    rcases List.mem_cons.1 hr with rfl | hr2
    · refine ⟨"Bus", rfl, fun _ => ⟨"a.wav", rfl, rfl⟩⟩
    · exact absurd hr2 (List.not_mem_nil r)

/-- C9: when two matching records carry the same file name (the roots being
distinct directories not ending in a separator and all file names between
them separator-free), only the earlier one can be moved — once the run
reaches the later duplicate, the shared source path is gone, so the later
record performs no filesystem mutation and reports `SourceMissing`; its
outcome at its position in the run's outcome list is `sourceMissing`.  A
given source file is therefore never moved twice in one run. -/
theorem c9_duplicate_filename (label source dest : String)
    (l1 l2 l3 : List Row) (ri rj : Row) (f : String)
    (fs fsF : FS) (os : List Outcome) (ls : List String)
    (hs : strEndsWith source ("/") = false)
    (hd : strEndsWith dest ("/") = false)
    (hsd : source ≠ dest)
    (hf : '/' ∉ f.data)
    (hfl2 : ∀ r ∈ l2, ∀ g, getCol r filenameCol = some g → '/' ∉ g.data)
    (hcati : getCol ri categoryCol = some label)
    (hfni : getCol ri filenameCol = some f)
    (hcatj : getCol rj categoryCol = some label)
    (hfnj : getCol rj filenameCol = some f)
    (h : runRows label source dest fs (l1 ++ ri :: l2 ++ rj :: l3)
      = Except.ok (fsF, os, ls)) :
    ∃ fsB osA osC lsA,
      runRows label source dest fs (l1 ++ ri :: l2) = Except.ok (fsB, osA, lsA) ∧
      processRow label source dest fsB rj
        = Except.ok (fsB, Outcome.sourceMissing, [notFoundLine (src_path source f)]) ∧
      os = osA ++ Outcome.sourceMissing :: osC ∧
      osA.length = l1.length + 1 + l2.length := by
  have hassoc : l1 ++ ri :: l2 ++ rj :: l3 = (l1 ++ ri :: l2) ++ rj :: l3 := by
    simp
  rw [hassoc] at h
  obtain ⟨fsB, osA, lsA, osB, lsB, hxs, hys, hosEq, hlsEq⟩ :=
    runRows_append_inv label source dest (l1 ++ ri :: l2) (rj :: l3) fs fsF os ls h
  have habs : src_path source f ∉ fsB.files := by
    obtain ⟨fsA, osA1, lsA1, osA2, lsA2, hl1, hril2, _, _⟩ :=
      runRows_append_inv label source dest l1 (ri :: l2) fs fsB osA lsA hxs
    obtain ⟨fsM, oI, lsI, osl2, lsl2, hpi, hl2, _, _⟩ :=
      runRows_cons_inv label source dest fsA fsB ri l2 osA2 lsA2 hril2
    have hne : src_path source f ≠ dst_path dest f :=
      pathJoin_ne source dest f f hs hd hsd hf hf
    have h1 : src_path source f ∉ fsM.files :=
      processRow_matched_src_absent label source dest fsA fsM ri oI lsI f
        hcati hfni hne hpi
    exact runRows_preserves_absence label source dest l2 fsM fsB osl2 lsl2
      (src_path source f) h1
      (fun r' hr' g hg =>
        pathJoin_ne dest source g f hd hs (fun hh => hsd hh.symm)
          (hfl2 r' hr' g hg) hf)
      hl2
  have hex : fileExists fsB (src_path source f) = false := by
    simp [fileExists, habs]
  have hpj := processRow_missing label source dest fsB rj f hcatj hfnj hex
  obtain ⟨fsJ, oJ, lsJ, os3, ls3, hpj2, hl3, hosB, _⟩ :=
    runRows_cons_inv label source dest fsB fsF rj l3 osB lsB hys
  rw [hpj] at hpj2
  simp only [Except.ok.injEq, Prod.mk.injEq] at hpj2
  obtain ⟨hfsJ, hoJ, _⟩ := hpj2
  refine ⟨fsB, osA, os3, lsA, hxs, hpj, ?_, ?_⟩
  · rw [hosEq, hosB, hoJ]
  · rw [runRows_length label source dest (l1 ++ ri :: l2) fs fsB osA lsA hxs,
      List.length_append, List.length_cons]
    omega

theorem c9_duplicate_filename_witness :
    ∃ fsB osA osC lsA,
      runRows ("Bus") ("s") ("d") (FS.mk (["s", "d"]) (["s/a.wav"]))
        (([]) ++ ([(categoryCol, "Bus"), (filenameCol, "a.wav")]) :: ([]))
        = Except.ok (fsB, osA, lsA) ∧
      processRow ("Bus") ("s") ("d") fsB ([(categoryCol, "Bus"), (filenameCol, "a.wav")])
        = Except.ok (fsB, Outcome.sourceMissing, [notFoundLine (src_path ("s") ("a.wav"))]) ∧
      [Outcome.moved, Outcome.sourceMissing] = osA ++ Outcome.sourceMissing :: osC ∧
      osA.length = ([] : List Row).length + 1 + ([] : List Row).length :=
  c9_duplicate_filename ("Bus") ("s") ("d") ([]) ([]) ([])
    ([(categoryCol, "Bus"), (filenameCol, "a.wav")])
    ([(categoryCol, "Bus"), (filenameCol, "a.wav")]) ("a.wav")
    (FS.mk (["s", "d"]) (["s/a.wav"])) (FS.mk (["s", "d"]) (["d/a.wav"]))
    ([Outcome.moved, Outcome.sourceMissing])
    ([movedLine ("s/a.wav") ("d/a.wav"), notFoundLine ("s/a.wav")])
    rfl rfl (by decide) (by decide)
    (fun r hr => absurd hr (List.not_mem_nil r)) rfl rfl rfl rfl rfl

/-- C10: the text-substitution utility rewrites exactly the entries of the
folder whose names end in `.txt` — for each such file the new content is
the replacement string joined over the split of the old content at every
non-overlapping occurrence of the literal token (Python's
`new.join(s.split(old))`, which is `s.replace(old, new)`, occurrences
inside longer words included); the name of every entry is preserved and
every file not ending in `.txt` is left entirely unchanged. -/
theorem c10_txt_replace (tC idx : String) (folder : List (String × String)) :
    processFolder tC idx folder
      = folder.map (fun e =>
          if strEndsWith e.1 (".txt") then
            (e.1, String.mk (intercalateList idx.data (splitOnList tC.data e.2.data)))
          else e) := by
  unfold processFolder
  apply List.map_congr_left
  intro e he
  by_cases ht : strEndsWith e.1 (".txt") = true
  · rw [if_pos ht, if_pos ht]
    unfold strReplace
    rw [replaceList_eq_intercalate]
  · rw [if_neg ht, if_neg ht]
